import Mathlib

/-!
Shallow embedding of the core of the `torrust-tracker` repository
(tracker registry, authentication, UDP connection-cookie engines),
with theorems settling the frozen claims about its specification.

Conventions used throughout:
* Machine integers (`u32`, `u64`, `i64`, `Duration`) are modelled as `Nat`
  (or `Int` where the source is signed); where an overflowing conversion
  matters a `< 2 ^ 32` side condition is carried explicitly.
* `&self` methods that only take read locks are modelled as state-passing
  functions that return the (unchanged) tracker state, so that frame
  properties are about the definition and not vacuous.
* `BTreeMap` / `HashMap` / `HashSet` are modelled as association lists
  (respectively plain lists) with first-match lookup; the map invariant
  "keys are distinct" is carried as a `Nodup` hypothesis where a theorem
  needs it.
* Code of the repository that is not under `src/` (the torrent-entry
  module, the peer module, the cookie-engine helper modules and the
  scrape handler) is modelled from the spec; each such definition says so
  in its doc comment.
-/

namespace Torrust

/-- IP address: `std::net::IpAddr`, a v4 or a v6 address.  The numeric
payload stands for the address bytes; only equality is used by the code
under study. -/
inductive IpAddr where
  | v4 (addr : Nat)
  | v6 (addr : Nat)
deriving DecidableEq, Repr

/-- `std::net::SocketAddr`: an IP address plus a port. -/
structure SocketAddr where
  ip : IpAddr
  port : Nat
deriving DecidableEq, Repr

/-- `InfoHash(pub [u8; 20])` from `src/protocol/common.rs`: a 20-byte
torrent identifier, modelled as its list of bytes. -/
structure InfoHash where
  bytes : List Nat
deriving DecidableEq, Repr

/-- `PeerId(pub [u8; 20])` from `src/protocol/common.rs`. -/
structure PeerId where
  bytes : List Nat
deriving DecidableEq, Repr

/-- `aquatic_udp_protocol::AnnounceEvent` (re-exported in
`src/protocol/common.rs` as `AnnounceEventDef`). -/
inductive AnnounceEvent where
  | started
  | stopped
  | completed
  | none
deriving DecidableEq, Repr

/-- First-match lookup in an association list; the model of map reads on
`BTreeMap`/`HashMap`. -/
def lkp {α β : Type} [DecidableEq α] : List (α × β) → α → Option β
  | [], _ => Option.none
  | (k, v) :: rest, a => if a = k then some v else lkp rest a

/-- Key membership in an association list; the model of `contains_key`. -/
def hasKey {α β : Type} [DecidableEq α] (l : List (α × β)) (a : α) : Bool :=
  (lkp l a).isSome

theorem lkp_nil {α β : Type} [DecidableEq α] (a : α) :
    lkp ([] : List (α × β)) a = Option.none := rfl

theorem lkp_cons {α β : Type} [DecidableEq α] (k : α) (v : β) (rest : List (α × β)) (a : α) :
    lkp ((k, v) :: rest) a = if a = k then some v else lkp rest a := rfl

section KeyModule

/-- `AuthKey` from `src/tracker/key.rs`: a key string together with an
optional expiry instant (`Option<Duration>` since the Unix epoch,
modelled in whole seconds). -/
structure AuthKey where
  key : String
  valid_until : Option Nat
deriving DecidableEq, Repr

/-- `Error` from `src/tracker/key.rs`. -/
inductive KeyError where
  | KeyVerificationError
  | KeyInvalid
  | KeyExpired
deriving DecidableEq, Repr

/-- `verify_auth_key` from `src/tracker/key.rs`: reject a key with no
expiry (`KeyInvalid`), reject a key whose expiry is not strictly in the
future (`KeyExpired`), accept otherwise.  The clock read
`DefaultClock::now()` is passed in as `now`. -/
def keyVerifyAuthKey (auth_key : AuthKey) (now : Nat) : Except KeyError Unit :=
  match auth_key.valid_until with
  | Option.none => Except.error KeyError.KeyInvalid
  | some valid_until =>
    if valid_until ≤ now then Except.error KeyError.KeyExpired
    else Except.ok ()

end KeyModule

/-- `TrackerMode` from `src/tracker/mode.rs`.  `priv` and `privListed`
stand for the source's `Private` and `PrivateListed` (renamed because
`private` is a Lean keyword). -/
inductive TrackerMode where
  | public
  | listed
  | priv
  | privListed
deriving DecidableEq, Repr

section SwarmModel

/-- Modelled from the spec: `TorrentPeer` (the file
`src/tracker/peer.rs` is not under `src/`; the spec's Peer record is
`{peer_id, socket_address (IP+port), updated_at, uploaded, downloaded,
left, last_event}`).  A peer is a seeder iff `left = 0`. -/
structure TorrentPeer where
  peer_id : PeerId
  peer_addr : SocketAddr
  updated_at : Nat
  uploaded : Int
  downloaded : Int
  left : Int
  event : AnnounceEvent
deriving DecidableEq, Repr

/-- `TorrentEntry` (declared in the missing `src/tracker/torrent.rs`,
but its two fields `peers` and `completed` are used literally by
`src/tracker/tracker.rs`): a map `peer_id → TorrentPeer` plus the
`completed` counter. -/
structure TorrentEntry where
  peers : List (PeerId × TorrentPeer)
  completed : Nat
deriving DecidableEq, Repr

/-- `TorrentEntry::new()` as used by `update_torrent_with_peer_and_get_stats`:
an entry with no peers and `completed = 0`. -/
def TorrentEntry.new : TorrentEntry := { peers := [], completed := 0 }

/-- Insert-or-replace of a peer keyed by its id (the model of
`BTreeMap::insert`): the first binding of the key is replaced in place,
and a missing key is appended. -/
def insertKey {α β : Type} [DecidableEq α] (l : List (α × β)) (a : α) (b : β) :
    List (α × β) :=
  if hasKey l a then
    l.map (fun kv => if kv.1 = a then (kv.1, b) else kv)
  else
    l ++ [(a, b)]

/-- Removal of a key from an association list (the model of
`BTreeMap::remove`). -/
def removeKey {α β : Type} [DecidableEq α] (l : List (α × β)) (a : α) :
    List (α × β) :=
  l.filter (fun kv => kv.1 ≠ a)

/-- Modelled from the spec: `TorrentEntry::update_peer` (file
`src/tracker/torrent.rs` missing), following §4.4 "Mutation":
a `Stopped` announce removes the peer and never touches `completed`;
any other announce upserts the peer record, incrementing `completed`
exactly when the event is `Completed` and the peer was previously
absent or stored as a leecher (`left > 0`).  The returned boolean is
`stats_updated`: whether `completed` changed. -/
def TorrentEntry.update_peer (e : TorrentEntry) (peer : TorrentPeer) :
    TorrentEntry × Bool :=
  if peer.event = AnnounceEvent.stopped then
    ({ e with peers := removeKey e.peers peer.peer_id }, false)
  else
    let completedTransition : Bool :=
      decide (peer.event = AnnounceEvent.completed) &&
        (match lkp e.peers peer.peer_id with
         | Option.none => true
         | some prev => decide (prev.left > 0))
    ({ peers := insertKey e.peers peer.peer_id peer,
       completed := if completedTransition then e.completed + 1 else e.completed },
     completedTransition)

/-- Modelled from the spec: `TorrentEntry::get_stats` (file missing);
§4.6 "Stats computation": `seeders = |{p : p.left == 0}|`,
`leechers = |{p : p.left > 0}|`, `completed = entry.completed`.  Returned
in the source's order `(seeders, completed, leechers)`. -/
def TorrentEntry.get_stats (e : TorrentEntry) : Nat × Nat × Nat :=
  ((e.peers.filter (fun kv => kv.2.left = 0)).length,
   e.completed,
   (e.peers.filter (fun kv => kv.2.left ≠ 0)).length)

/-- `TORRENT_PEERS_LIMIT` from `packages/configuration/src/lib.rs`:
the maximum number of returned peers for a torrent. -/
def TORRENT_PEERS_LIMIT : Nat := 74

/-- Modelled from the spec: `TorrentEntry::get_peers` (file missing);
§4.4 "Peer-list assembly": select up to 74 peers from the entry,
excluding the record whose socket address equals the announcing
client's. -/
def TorrentEntry.get_peers (e : TorrentEntry) (client_addr : Option SocketAddr) :
    List TorrentPeer :=
  match client_addr with
  | Option.none => (e.peers.map Prod.snd).take TORRENT_PEERS_LIMIT
  | some addr =>
    ((e.peers.map Prod.snd).filter (fun p => p.peer_addr ≠ addr)).take TORRENT_PEERS_LIMIT

/-- Modelled from the spec: `TorrentEntry::remove_inactive_peers` (file
missing); §4.6 "Sweeper": remove the peers with
`now − updated_at > max_peer_age`.  The clock read is passed as `now`;
the subtraction is truncated as for unsigned instants. -/
def TorrentEntry.remove_inactive_peers (e : TorrentEntry) (max_peer_age now : Nat) :
    TorrentEntry :=
  { e with peers := e.peers.filter (fun kv => ¬ now - kv.2.updated_at > max_peer_age) }

/-- `TorrentError` (declared in the missing `src/tracker/torrent.rs`;
the three variants below are exactly the ones produced by
`TorrentTracker::authenticate_request` in `src/tracker/tracker.rs`). -/
inductive TorrentError where
  | TorrentNotWhitelisted
  | PeerNotAuthenticated
  | PeerKeyNotValid
deriving DecidableEq, Repr

/-- `TorrentStats` (declared in the missing `src/tracker/torrent.rs`;
built field-by-field in `update_torrent_with_peer_and_get_stats`). -/
structure TorrentStats where
  seeders : Nat
  leechers : Nat
  completed : Nat
deriving DecidableEq, Repr

end SwarmModel

section TrackerModule

/-- The fields of `CommonSettings` read by `src/tracker/tracker.rs`
(each is an `Option` unwrapped at use; modelled unwrapped). -/
structure CommonSettings where
  enable_persistent_statistics : Bool
  enable_peerless_torrent_pruning : Bool
  peer_timeout_seconds_maximum : Nat
deriving DecidableEq, Repr

/-- The state of `TorrentTracker` from `src/tracker/tracker.rs`: the
tracker mode, the common settings, and the three lock-protected maps
(`keys`, `whitelist`, `torrents`).  The statistics service and database
handles carry no state relevant to the claims. -/
structure TorrentTracker where
  mode : TrackerMode
  common : CommonSettings
  keys : List (String × AuthKey)
  whitelist : List InfoHash
  torrents : List (InfoHash × TorrentEntry)
deriving DecidableEq, Repr

/-- `TorrentTracker::is_public`. -/
def TorrentTracker.is_public (t : TorrentTracker) : Bool :=
  t.mode = TrackerMode.public

/-- `TorrentTracker::is_private`: `Private` or `PrivateListed` mode. -/
def TorrentTracker.is_private (t : TorrentTracker) : Bool :=
  t.mode = TrackerMode.priv ∨ t.mode = TrackerMode.privListed

/-- `TorrentTracker::is_whitelisted`: `Listed` or `PrivateListed` mode. -/
def TorrentTracker.is_whitelisted (t : TorrentTracker) : Bool :=
  t.mode = TrackerMode.listed ∨ t.mode = TrackerMode.privListed

/-- `TorrentTracker::verify_auth_key`: look the supplied key string up in
the in-memory key map (under a read lock) and verify the stored key
against the clock.  State-passing: the tracker state is returned
unchanged, as the method takes `&self` and only reads. -/
def TorrentTracker.verify_auth_key (t : TorrentTracker) (auth_key : AuthKey)
    (now : Nat) : Except KeyError Unit × TorrentTracker :=
  match lkp t.keys auth_key.key with
  | Option.none => (Except.error KeyError.KeyInvalid, t)
  | some key => (keyVerifyAuthKey key now, t)

/-- `TorrentTracker::is_info_hash_whitelisted`: membership in the
in-memory whitelist, under a read lock. -/
def TorrentTracker.is_info_hash_whitelisted (t : TorrentTracker)
    (info_hash : InfoHash) : Bool × TorrentTracker :=
  (t.whitelist.contains info_hash, t)

/-- `TorrentTracker::authenticate_request` from `src/tracker/tracker.rs`:
public mode passes; private modes require a supplied key that verifies
(`PeerNotAuthenticated` when absent, `PeerKeyNotValid` when verification
fails); listed modes then require the info-hash to be whitelisted
(`TorrentNotWhitelisted`).  State-passing as for the methods it calls. -/
def TorrentTracker.authenticate_request (t : TorrentTracker)
    (info_hash : InfoHash) (key : Option AuthKey) (now : Nat) :
    Except TorrentError Unit × TorrentTracker :=
  if t.is_public then (Except.ok (), t)
  else
    match (if t.is_private then
             match key with
             | some k =>
               let (r, t') := t.verify_auth_key k now
               if r.isOk then (Option.none, t')
               else (some TorrentError.PeerKeyNotValid, t')
             | Option.none => (some TorrentError.PeerNotAuthenticated, t)
           else (Option.none, t) : Option TorrentError × TorrentTracker) with
    | (some e, t') => (Except.error e, t')
    | (Option.none, t') =>
      if t'.is_whitelisted then
        let (found, t'') := t'.is_info_hash_whitelisted info_hash
        if found then (Except.ok (), t'') else
          (Except.error TorrentError.TorrentNotWhitelisted, t'')
      else (Except.ok (), t')

/-- The body of the loading loop of
`TorrentTracker::load_persistent_torrents`: skip a loaded info-hash that
already has a torrent entry, insert a fresh entry (no peers, the loaded
`completed` count) otherwise. -/
def loadPersistentStep (torrents : List (InfoHash × TorrentEntry))
    (p : InfoHash × Nat) : List (InfoHash × TorrentEntry) :=
  if hasKey torrents p.1 then torrents
  else torrents ++ [(p.1, { peers := [], completed := p.2 })]

/-- `TorrentTracker::load_persistent_torrents`: merge the `(info_hash,
completed)` pairs loaded from the database into the torrents map,
one `loadPersistentStep` per loaded pair. -/
def TorrentTracker.load_persistent_torrents (t : TorrentTracker)
    (persistent_torrents : List (InfoHash × Nat)) : TorrentTracker :=
  { t with torrents := persistent_torrents.foldl loadPersistentStep t.torrents }

/-- `TorrentTracker::get_torrent_peers`: all peers of the given torrent,
filtering out the peer with the client's socket address. -/
def TorrentTracker.get_torrent_peers (t : TorrentTracker)
    (info_hash : InfoHash) (client_addr : SocketAddr) : List TorrentPeer :=
  match lkp t.torrents info_hash with
  | Option.none => []
  | some entry => entry.get_peers (some client_addr)

/-- `TorrentTracker::update_torrent_with_peer_and_get_stats`: get or
create the entry for the info-hash, apply `update_peer`, and return the
stats.  The database write (`save_persistent_torrent`) has no effect on
the tracker state and is dropped. -/
def TorrentTracker.update_torrent_with_peer_and_get_stats
    (t : TorrentTracker) (info_hash : InfoHash) (peer : TorrentPeer) :
    TorrentTracker × TorrentStats :=
  let entry := (lkp t.torrents info_hash).getD TorrentEntry.new
  let (entry', _stats_updated) := entry.update_peer peer
  let stats := entry'.get_stats
  ({ t with torrents := insertKey t.torrents info_hash entry' },
   { seeders := stats.1, leechers := stats.2.2, completed := stats.2.1 })

/-- `TorrentTracker::cleanup_torrents`: remove inactive peers from every
entry; when peerless pruning is enabled, additionally retain an entry
only if it still has peers, or (with persistence enabled) has
`completed > 0`. -/
def TorrentTracker.cleanup_torrents (t : TorrentTracker) (now : Nat) :
    TorrentTracker :=
  if t.common.enable_peerless_torrent_pruning then
    let swept := t.torrents.map (fun kv =>
      (kv.1, kv.2.remove_inactive_peers t.common.peer_timeout_seconds_maximum now))
    let retained := swept.filter (fun kv =>
      match t.common.enable_persistent_statistics with
      | true => kv.2.completed > 0 || kv.2.peers.length > 0
      | false => kv.2.peers.length > 0)
    { t with torrents := retained }
  else
    { t with torrents :=
        t.torrents.map (fun kv =>
          (kv.1, kv.2.remove_inactive_peers t.common.peer_timeout_seconds_maximum now)) }

end TrackerModule

section UdpModule

/-- `MAX_SCRAPE_TORRENTS` from `src/protocol/common.rs`: the maximum
number of info-hashes accepted in one scrape request. -/
def MAX_SCRAPE_TORRENTS : Nat := 74

/-- `ServerError` from `src/udp/errors.rs`, together with the two
variants (`ExpiredConnectionId`, `BadWitnessConnectionId`) that the
connection-cookie module `src/udp/connection_cookie.rs` also produces. -/
inductive ServerError where
  | InternalServerError
  | InvalidInfoHash
  | AddressNotFound
  | NoPeersFound
  | TorrentNotWhitelisted
  | PeerNotAuthenticated
  | PeerKeyNotValid
  | ExceededInfoHashLimit
  | BadRequest
  | InvalidConnectionId
  | ExpiredConnectionId
  | BadWitnessConnectionId
deriving DecidableEq, Repr

/-- Modelled from the spec: the scrape handler (not under `src/`; only
`MAX_SCRAPE_TORRENTS` and the error variant are).  §4.5: for each
info-hash return `(seeders, completed, leechers)` read-only, zeros for a
missing entry; the core enforces at most 74 info-hashes per request,
failing with `ExceededInfoHashLimit` (§7) and mutating nothing. -/
def handleScrape (t : TorrentTracker) (info_hashes : List InfoHash) :
    Except ServerError (List (Nat × Nat × Nat)) × TorrentTracker :=
  if info_hashes.length > MAX_SCRAPE_TORRENTS then
    (Except.error ServerError.ExceededInfoHashLimit, t)
  else
    (Except.ok (info_hashes.map (fun ih =>
      match lkp t.torrents ih with
      | Option.none => (0, 0, 0)
      | some entry => entry.get_stats)), t)

end UdpModule

section ConnectionIdIssuer

/-- `ConnectionIdData` from the missing
`src/udp/connection/connection_id_data.rs`, as used by
`src/udp/connection/connection_id_issuer.rs`: a 4-byte client id
together with a 4-byte expiration timestamp (`Timestamp32`), packed into
one 8-byte block. -/
structure ConnectionIdData where
  client_id : Nat
  expiration_timestamp : Nat
deriving DecidableEq, Repr

/-- Modelled from the spec: the `BlowfishCypher` of the missing
`src/udp/connection/cypher.rs` — "a 64-bit block cipher" `E_k` (§4.1,
construction 3).  `encrypt` maps a packed `ConnectionIdData` block to
the 8-byte ciphertext (modelled as a `Nat` below `2^64`), and `decrypt`
is its inverse on well-formed blocks (both halves below `2^32`). -/
structure Cypher where
  encrypt : ConnectionIdData → Nat
  decrypt : Nat → ConnectionIdData
  decrypt_encrypt : ∀ d : ConnectionIdData,
    d.client_id < 2 ^ 32 → d.expiration_timestamp < 2 ^ 32 →
      decrypt (encrypt d) = d

/-- The context of `EncryptedConnectionIdIssuer`
(`src/udp/connection/connection_id_issuer.rs`): its cypher, plus the
client-id derivation `ClientId::from_socket_address` of the missing
`src/udp/connection/client_id.rs` — modelled from the spec as an
arbitrary 4-byte fingerprint of the remote socket address. -/
structure EncryptedConnectionIdIssuer where
  cypher : Cypher
  clientIdOf : SocketAddr → Nat
  clientIdOf_lt : ∀ a : SocketAddr, clientIdOf a < 2 ^ 32

/-- `EncryptedConnectionIdIssuer::new_connection_id`: encrypt the
client's fingerprint together with the expiration timestamp
`current_timestamp + 120`. -/
def EncryptedConnectionIdIssuer.new_connection_id
    (issuer : EncryptedConnectionIdIssuer) (remote_address : SocketAddr)
    (current_timestamp : Nat) : Nat :=
  issuer.cypher.encrypt
    { client_id := issuer.clientIdOf remote_address,
      expiration_timestamp := current_timestamp + 120 }

/-- `EncryptedConnectionIdIssuer::verify_connection_id`: decrypt, check
the embedded client id against the sender's fingerprint, then check the
expiration timestamp against the clock (`expiration < now` is expired).
The source's error type is `&'static str`; the two message strings are
kept verbatim. -/
def EncryptedConnectionIdIssuer.verify_connection_id
    (issuer : EncryptedConnectionIdIssuer) (connection_id : Nat)
    (remote_address : SocketAddr) (current_timestamp : Nat) :
    Except String Unit :=
  let connection_id_data := issuer.cypher.decrypt connection_id
  if connection_id_data.client_id ≠ issuer.clientIdOf remote_address then
    Except.error "Invalid client id"
  else if connection_id_data.expiration_timestamp < current_timestamp then
    Except.error "Expired connection id"
  else
    Except.ok ()

end ConnectionIdIssuer

section WitnessCookie

/-- A `Cookie = [u8; 8]` of `src/udp/connection_cookie.rs` in the witness
layout: the first four bytes (`witness`) and the last four bytes
(`expiryBits`), each modelled as the number the bytes encode
(little-endian, below `2^32`).  The source stores the expiry as the
little-endian bytes of an `f32` number of seconds; it is modelled here
by the exact time value it denotes, which preserves the source's
comparisons and its bit-exact byte round-trip. -/
structure WCookie where
  witness : Nat
  expiryBits : Nat
deriving DecidableEq, Repr

/-- `WitnessConnectionCookie::build` from `src/udp/connection_cookie.rs`:
hash `(remote_address, seed, expiry)` with the process seed and keep the
first four bytes as the witness, concatenated with the expiry bytes.
The seeded `DefaultHasher` digest (the seed lives in the missing
`src/protocol/crypto` module) is passed in as the function `hash64`;
taking the first four little-endian bytes of its 64-bit output is
`% 2^32`. -/
def witnessBuild (hash64 : SocketAddr → Nat → Nat)
    (remote_address : SocketAddr) (expiry : Nat) : WCookie :=
  { witness := hash64 remote_address expiry % 2 ^ 32, expiryBits := expiry }

/-- `WitnessConnectionCookie::check_connection_cookie`: read the expiry
from the last four bytes of the cookie, reject as expired when it is
strictly before the clock, then reject as a bad witness when the cookie
differs from the one rebuilt for this remote address and expiry.  On
success the source returns a time extent made from the expiry; the
expiry itself is returned here. -/
def witnessCheckConnectionCookie (hash64 : SocketAddr → Nat → Nat)
    (remote_address : SocketAddr) (connection_cookie : WCookie) (now : Nat) :
    Except ServerError Nat :=
  let expiry_time := connection_cookie.expiryBits
  if expiry_time < now then
    Except.error ServerError.ExpiredConnectionId
  else if connection_cookie ≠ witnessBuild hash64 remote_address expiry_time then
    Except.error ServerError.BadWitnessConnectionId
  else
    Except.ok expiry_time

end WitnessCookie

section AssocLemmas

variable {α β : Type} [DecidableEq α]

theorem lkp_append (l₁ l₂ : List (α × β)) (a : α) :
    lkp (l₁ ++ l₂) a =
      match lkp l₁ a with
      | some v => some v
      | Option.none => lkp l₂ a := by
  induction l₁ with
  | nil => simp [lkp]
  | cons kv rest ih =>
    obtain ⟨k, v⟩ := kv
    by_cases h : a = k <;> simp [lkp, h, ih]

theorem lkp_append_single_self (l : List (α × β)) (a : α) (b : β)
    (h : lkp l a = Option.none) : lkp (l ++ [(a, b)]) a = some b := by
  rw [lkp_append, h]
  simp [lkp]

theorem lkp_append_single_other (l : List (α × β)) (a a' : α) (b : β)
    (h : a' ≠ a) : lkp (l ++ [(a, b)]) a' = lkp l a' := by
  rw [lkp_append]
  cases hl : lkp l a' <;> simp [lkp, h]

/-- Replacing the value bound to `a` throughout an association list acts
on first-match lookups pointwise. -/
theorem lkp_replaceAll (l : List (α × β)) (a x : α) (b : β) :
    lkp (l.map (fun kv => if kv.1 = a then (kv.1, b) else kv)) x =
      (lkp l x).map (fun v => if x = a then b else v) := by
  induction l with
  | nil => simp [lkp]
  | cons kv rest ih =>
    obtain ⟨k, v⟩ := kv
    simp only [List.map_cons]
    by_cases hk : k = a
    · subst hk
      rw [if_pos rfl]
      by_cases hx : x = k
      · subst hx
        simp [lkp]
      · simp [lkp, hx, ih]
    · rw [if_neg hk]
      by_cases hx : x = k
      · subst hx
        have hxa : x ≠ a := hk
        simp [lkp, hxa]
      · simp [lkp, hx, ih]

theorem lkp_map_pair (l : List (α × β)) (f : α × β → β) (a : α) :
    lkp (l.map (fun kv => (kv.1, f kv))) a =
      (lkp l a).map (fun v => f (a, v)) := by
  induction l with
  | nil => simp [lkp]
  | cons kv rest ih =>
    obtain ⟨k, v⟩ := kv
    by_cases h : a = k
    · subst h
      simp [lkp]
    · simp [lkp, h, ih]

theorem lkp_filter_of_none (l : List (α × β)) (P : α × β → Bool) (a : α)
    (h : lkp l a = Option.none) : lkp (l.filter P) a = Option.none := by
  induction l with
  | nil => simp [lkp]
  | cons kv rest ih =>
    obtain ⟨k, v⟩ := kv
    by_cases hx : a = k
    · subst hx
      simp [lkp] at h
    · rw [lkp_cons] at h
      rw [if_neg hx] at h
      by_cases hP : P (k, v) <;> simp [List.filter, hP, lkp, hx, ih h]

theorem mem_keys_of_lkp_some (l : List (α × β)) (a : α) (v : β)
    (h : lkp l a = some v) : a ∈ l.map Prod.fst := by
  induction l with
  | nil => simp [lkp] at h
  | cons kv rest ih =>
    obtain ⟨k, w⟩ := kv
    by_cases hx : a = k
    · simp [hx]
    · rw [lkp_cons, if_neg hx] at h
      simp [ih h]

theorem lkp_eq_none_of_not_mem_keys (l : List (α × β)) (a : α)
    (h : a ∉ l.map Prod.fst) : lkp l a = Option.none := by
  cases hl : lkp l a with
  | none => rfl
  | some v => exact absurd (mem_keys_of_lkp_some l a v hl) h

/-- On an association list with distinct keys, filtering commutes with
first-match lookup. -/
theorem lkp_filter_of_nodup (l : List (α × β)) (P : α × β → Bool) (a : α) (v : β)
    (hnd : (l.map Prod.fst).Nodup) (h : lkp l a = some v) :
    lkp (l.filter P) a = if P (a, v) then some v else Option.none := by
  induction l with
  | nil => simp [lkp] at h
  | cons kv rest ih =>
    obtain ⟨k, w⟩ := kv
    simp only [List.map_cons, List.nodup_cons] at hnd
    by_cases hx : a = k
    · subst hx
      rw [lkp_cons, if_pos rfl] at h
      injection h with hwv
      subst hwv
      have hrest : lkp rest a = Option.none :=
        lkp_eq_none_of_not_mem_keys rest a hnd.1
      by_cases hP : P (a, w)
      · rw [List.filter_cons, if_pos (by simpa using hP)]
        simp [lkp, hP]
      · rw [List.filter_cons, if_neg (by simpa using hP)]
        simp [lkp_filter_of_none rest P a hrest, hP]
    · rw [lkp_cons, if_neg hx] at h
      by_cases hP : P (k, w)
      · rw [List.filter_cons, if_pos (by simpa using hP)]
        rw [lkp_cons, if_neg hx]
        exact ih hnd.2 h
      · rw [List.filter_cons, if_neg (by simpa using hP)]
        exact ih hnd.2 h

end AssocLemmas

section Examples

/-- Common settings used by concrete test states. -/
def commonEx : CommonSettings :=
  { enable_persistent_statistics := false,
    enable_peerless_torrent_pruning := true,
    peer_timeout_seconds_maximum := 60 }

/-- A public-mode tracker with empty maps. -/
def trackerEx : TorrentTracker :=
  { mode := TrackerMode.public, common := commonEx,
    keys := [], whitelist := [], torrents := [] }

/-- A listed-mode tracker with empty maps. -/
def trackerListedEx : TorrentTracker :=
  { mode := TrackerMode.listed, common := commonEx,
    keys := [], whitelist := [], torrents := [] }

/-- A concrete info-hash. -/
def ihEx : InfoHash := { bytes := [1] }

end Examples

section ClaimC9

/-- C9: `verify_auth_key` rejects every `AuthKey` whose `valid_until`
field is `None`, returning the `KeyInvalid` error, so a key without an
expiration instant is never accepted by key verification. -/
theorem verify_auth_key_rejects_missing_expiry (auth_key : AuthKey) (now : Nat)
    (h : auth_key.valid_until = Option.none) :
    keyVerifyAuthKey auth_key now = Except.error KeyError.KeyInvalid := by
  simp [keyVerifyAuthKey, h]

/-- Witness for C9 at a concrete expiry-less key. -/
theorem verify_auth_key_rejects_missing_expiry_witness :
    keyVerifyAuthKey { key := "YZSl4lMZupRuOpSRC3krIKR5BPB14nrJ",
                       valid_until := Option.none } 50
      = Except.error KeyError.KeyInvalid :=
  verify_auth_key_rejects_missing_expiry _ 50 rfl

end ClaimC9

section ClaimC8

/-- C8: a scrape with more than 74 info-hashes fails with
`ExceededInfoHashLimit` and leaves the tracker state unchanged; a scrape
with at most 74 info-hashes is not rejected by this limit. -/
theorem handle_scrape_info_hash_limit (t : TorrentTracker)
    (info_hashes : List InfoHash) :
    (info_hashes.length > MAX_SCRAPE_TORRENTS →
      handleScrape t info_hashes =
        (Except.error ServerError.ExceededInfoHashLimit, t)) ∧
    (info_hashes.length ≤ MAX_SCRAPE_TORRENTS →
      ∃ stats, handleScrape t info_hashes = (Except.ok stats, t)) := by
  constructor
  · intro h
    simp only [handleScrape]
    rw [if_pos h]
  · intro h
    refine ⟨info_hashes.map (fun ih =>
      match lkp t.torrents ih with
      | Option.none => (0, 0, 0)
      | some entry => entry.get_stats), ?_⟩
    simp only [handleScrape]
    rw [if_neg (by omega)]

/-- Witness for C8: 75 info-hashes are rejected with the limit error and
no mutation; 74 info-hashes are accepted. -/
theorem handle_scrape_info_hash_limit_witness :
    handleScrape trackerEx (List.replicate 75 ihEx) =
      (Except.error ServerError.ExceededInfoHashLimit, trackerEx) ∧
    ∃ stats, handleScrape trackerEx (List.replicate 74 ihEx) =
      (Except.ok stats, trackerEx) :=
  ⟨(handle_scrape_info_hash_limit trackerEx _).1 (by simp [MAX_SCRAPE_TORRENTS]),
   (handle_scrape_info_hash_limit trackerEx _).2 (by simp [MAX_SCRAPE_TORRENTS])⟩

end ClaimC8

section ClaimC4

/-- `authenticate_request` returns the tracker state unchanged on every
path: it only ever takes read locks. -/
theorem authenticate_request_state_eq (t : TorrentTracker) (info_hash : InfoHash)
    (key : Option AuthKey) (now : Nat) :
    (t.authenticate_request info_hash key now).2 = t := by
  unfold TorrentTracker.authenticate_request TorrentTracker.verify_auth_key
    TorrentTracker.is_info_hash_whitelisted
  by_cases hp : t.is_public
  · simp [hp]
  · simp only [hp, Bool.false_eq_true, if_false]
    by_cases hpr : t.is_private
    · cases key with
      | none => simp [hpr]
      | some k =>
        cases hl : lkp t.keys k.key with
        | none => simp [hpr, hl, Except.isOk, Except.toBool]
        | some sk =>
          by_cases hok : (keyVerifyAuthKey sk now).isOk
          · simp only [hpr, if_true, hl, hok]
            split
            · split <;> rfl
            · rfl
          · simp [hpr, hl, hok]
    · simp only [hpr, Bool.false_eq_true, if_false]
      split
      · split <;> rfl
      · rfl

/-- C4: whenever `authenticate_request` returns a policy error, the
torrents map, the in-memory key map and the whitelist are exactly the
same after the call as before it. -/
theorem authenticate_request_frame (t : TorrentTracker) (info_hash : InfoHash)
    (key : Option AuthKey) (now : Nat) (e : TorrentError)
    (_h : (t.authenticate_request info_hash key now).1 = Except.error e) :
    (t.authenticate_request info_hash key now).2.torrents = t.torrents ∧
    (t.authenticate_request info_hash key now).2.keys = t.keys ∧
    (t.authenticate_request info_hash key now).2.whitelist = t.whitelist := by
  rw [authenticate_request_state_eq]
  exact ⟨rfl, rfl, rfl⟩

/-- Witness for C4: a listed-mode tracker rejects a non-whitelisted
info-hash and its three maps are unchanged. -/
theorem authenticate_request_frame_witness :
    (trackerListedEx.authenticate_request ihEx Option.none 0).1 =
      Except.error TorrentError.TorrentNotWhitelisted ∧
    (trackerListedEx.authenticate_request ihEx Option.none 0).2.torrents =
      trackerListedEx.torrents ∧
    (trackerListedEx.authenticate_request ihEx Option.none 0).2.keys =
      trackerListedEx.keys ∧
    (trackerListedEx.authenticate_request ihEx Option.none 0).2.whitelist =
      trackerListedEx.whitelist :=
  ⟨rfl, authenticate_request_frame trackerListedEx ihEx Option.none 0
    TorrentError.TorrentNotWhitelisted rfl⟩

end ClaimC4

section ClaimC2

/-- The ways the key gate of `authenticate_request` rejects a supplied
key: its string is unknown to the in-memory key map, or the stored key
has no expiration instant, or the stored key's expiration instant is not
strictly in the future. -/
def keyNotValid (t : TorrentTracker) (k : AuthKey) (now : Nat) : Prop :=
  lkp t.keys k.key = Option.none ∨
  ∃ sk, lkp t.keys k.key = some sk ∧
    (sk.valid_until = Option.none ∨ ∃ v, sk.valid_until = some v ∧ v ≤ now)

theorem verify_auth_key_pair (t : TorrentTracker) (k : AuthKey) (now : Nat) :
    ∃ r, t.verify_auth_key k now = (r, t) := by
  unfold TorrentTracker.verify_auth_key
  cases lkp t.keys k.key <;> exact ⟨_, rfl⟩

theorem verify_auth_key_isOk_false_iff (t : TorrentTracker) (k : AuthKey)
    (now : Nat) :
    (t.verify_auth_key k now).1.isOk = false ↔ keyNotValid t k now := by
  unfold TorrentTracker.verify_auth_key keyNotValid
  cases hl : lkp t.keys k.key with
  | none => simp [Except.isOk, Except.toBool]
  | some sk =>
    cases hv : sk.valid_until with
    | none => simp [keyVerifyAuthKey, hv, Except.isOk, Except.toBool]
    | some v =>
      by_cases hle : v ≤ now <;>
        simp [keyVerifyAuthKey, hv, hle, Except.isOk, Except.toBool]

theorem is_public_false_of_private (t : TorrentTracker)
    (h : t.is_private = true) : t.is_public = false := by
  unfold TorrentTracker.is_public TorrentTracker.is_private at *
  cases hm : t.mode <;> simp_all

theorem is_public_false_of_whitelisted (t : TorrentTracker)
    (h : t.is_whitelisted = true) : t.is_public = false := by
  unfold TorrentTracker.is_public TorrentTracker.is_whitelisted at *
  cases hm : t.mode <;> simp_all

/-- A private-mode tracker whose key map holds one key with no
expiration instant. -/
def storedKeyNoExpiry : AuthKey :=
  { key := "YZSl4lMZupRuOpSRC3krIKR5BPB14nrJ", valid_until := Option.none }

/-- A private-mode tracker containing `storedKeyNoExpiry`. -/
def trackerPrivEx : TorrentTracker :=
  { mode := TrackerMode.priv, common := commonEx,
    keys := [(storedKeyNoExpiry.key, storedKeyNoExpiry)],
    whitelist := [], torrents := [] }

/-- Counterexample to C2 as stated: in private mode, a supplied key that
is known to the key map (lookup succeeds) and is not expired (the stored
key carries no expiration instant at all) is still rejected with
`PeerKeyNotValid`, where the claim's "otherwise it returns Ok" clause
requires `Ok`. -/
theorem authenticate_request_rejects_known_unexpired_key_without_expiry :
    (trackerPrivEx.authenticate_request ihEx (some storedKeyNoExpiry) 5).1 =
      Except.error TorrentError.PeerKeyNotValid ∧
    lkp trackerPrivEx.keys storedKeyNoExpiry.key = some storedKeyNoExpiry ∧
    storedKeyNoExpiry.valid_until = Option.none := by
  refine ⟨rfl, ?_, rfl⟩
  simp [trackerPrivEx, lkp]

/-- C2 (amended): `authenticate_request` applies the policy gate as
follows — public mode always passes; in private or private-listed mode a
missing key yields `PeerNotAuthenticated` and a supplied key that is
unknown, stored without an expiration instant, or expired yields
`PeerKeyNotValid`; in listed or private-listed mode (the key gate having
passed first) a non-whitelisted info-hash yields
`TorrentNotWhitelisted`; otherwise the request is accepted. -/
theorem authenticate_request_characterization (t : TorrentTracker)
    (info_hash : InfoHash) (key : Option AuthKey) (now : Nat) :
    (t.is_public = true →
      (t.authenticate_request info_hash key now).1 = Except.ok ()) ∧
    (t.is_private = true → key = Option.none →
      (t.authenticate_request info_hash key now).1 =
        Except.error TorrentError.PeerNotAuthenticated) ∧
    (∀ k, t.is_private = true → key = some k → keyNotValid t k now →
      (t.authenticate_request info_hash key now).1 =
        Except.error TorrentError.PeerKeyNotValid) ∧
    (t.is_whitelisted = true →
      (t.is_private = true → ∃ k, key = some k ∧ ¬ keyNotValid t k now) →
      info_hash ∉ t.whitelist →
      (t.authenticate_request info_hash key now).1 =
        Except.error TorrentError.TorrentNotWhitelisted) ∧
    ((t.is_public = true ∨
      ((t.is_private = true → ∃ k, key = some k ∧ ¬ keyNotValid t k now) ∧
       (t.is_whitelisted = true → info_hash ∈ t.whitelist))) →
      (t.authenticate_request info_hash key now).1 = Except.ok ()) := by
  refine ⟨?_, ?_, ?_, ?_, ?_⟩
  · intro hp
    simp [TorrentTracker.authenticate_request, hp]
  · intro hpr hk
    subst hk
    have hp := is_public_false_of_private t hpr
    simp [TorrentTracker.authenticate_request, hp, hpr]
  · intro k hpr hk hnv
    subst hk
    have hp := is_public_false_of_private t hpr
    obtain ⟨r, hr⟩ := verify_auth_key_pair t k now
    have hok : r.isOk = false := by
      have h0 := (verify_auth_key_isOk_false_iff t k now).mpr hnv
      rwa [hr] at h0
    simp [TorrentTracker.authenticate_request, hp, hpr, hr, hok]
  · intro hw hkey hmem
    have hp := is_public_false_of_whitelisted t hw
    by_cases hpr : t.is_private
    · obtain ⟨k, hk, hnv⟩ := hkey hpr
      subst hk
      obtain ⟨r, hr⟩ := verify_auth_key_pair t k now
      have hok : r.isOk = true := by
        cases hcase : r.isOk with
        | true => rfl
        | false =>
          refine absurd ((verify_auth_key_isOk_false_iff t k now).mp ?_) hnv
          rw [hr]
          exact hcase
      simp [TorrentTracker.authenticate_request, hp, hpr, hr, hok,
        TorrentTracker.is_info_hash_whitelisted, hw, hmem]
    · simp [TorrentTracker.authenticate_request, hp, hpr,
        TorrentTracker.is_info_hash_whitelisted, hw, hmem]
  · intro hcases
    rcases hcases with hp | ⟨hkey, hwl⟩
    · simp [TorrentTracker.authenticate_request, hp]
    · by_cases hp : t.is_public
      · simp [TorrentTracker.authenticate_request, hp]
      · by_cases hw : t.is_whitelisted
        · have hmem := hwl hw
          by_cases hpr : t.is_private
          · obtain ⟨k, hk, hnv⟩ := hkey hpr
            subst hk
            obtain ⟨r, hr⟩ := verify_auth_key_pair t k now
            have hok : r.isOk = true := by
              cases hcase : r.isOk with
              | true => rfl
              | false =>
                refine absurd ((verify_auth_key_isOk_false_iff t k now).mp ?_) hnv
                rw [hr]
                exact hcase
            simp [TorrentTracker.authenticate_request, hp, hpr, hr, hok,
              TorrentTracker.is_info_hash_whitelisted, hw, hmem]
          · simp [TorrentTracker.authenticate_request, hp, hpr,
              TorrentTracker.is_info_hash_whitelisted, hw, hmem]
        · by_cases hpr : t.is_private
          · obtain ⟨k, hk, hnv⟩ := hkey hpr
            subst hk
            obtain ⟨r, hr⟩ := verify_auth_key_pair t k now
            have hok : r.isOk = true := by
              cases hcase : r.isOk with
              | true => rfl
              | false =>
                refine absurd ((verify_auth_key_isOk_false_iff t k now).mp ?_) hnv
                rw [hr]
                exact hcase
            simp [TorrentTracker.authenticate_request, hp, hpr, hr, hok, hw]
          · simp [TorrentTracker.authenticate_request, hp, hpr, hw]

/-- Witness for C2 (amended), exercising every clause at concrete
states: a public tracker accepts; a private tracker rejects a missing
key, rejects the expiry-less stored key, and a listed tracker rejects a
non-whitelisted info-hash and accepts a whitelisted one. -/
theorem authenticate_request_characterization_witness :
    (trackerEx.authenticate_request ihEx Option.none 0).1 = Except.ok () ∧
    (trackerPrivEx.authenticate_request ihEx Option.none 0).1 =
      Except.error TorrentError.PeerNotAuthenticated ∧
    (trackerPrivEx.authenticate_request ihEx (some storedKeyNoExpiry) 5).1 =
      Except.error TorrentError.PeerKeyNotValid ∧
    (trackerListedEx.authenticate_request ihEx Option.none 0).1 =
      Except.error TorrentError.TorrentNotWhitelisted :=
  ⟨(authenticate_request_characterization trackerEx ihEx Option.none 0).1 rfl,
   (authenticate_request_characterization trackerPrivEx ihEx Option.none 0).2.1
     rfl rfl,
   (authenticate_request_characterization trackerPrivEx ihEx
       (some storedKeyNoExpiry) 5).2.2.1 storedKeyNoExpiry rfl rfl
     (Or.inr ⟨storedKeyNoExpiry, by simp [trackerPrivEx, lkp], Or.inl rfl⟩),
   (authenticate_request_characterization trackerListedEx ihEx Option.none 0).2.2.2.1
     rfl (fun hpr => absurd hpr (by decide))
     (by simp [trackerListedEx])⟩

end ClaimC2

section ClaimC10

theorem loadPersistent_foldl_preserves (ps : List (InfoHash × Nat))
    (acc : List (InfoHash × TorrentEntry)) (a : InfoHash)
    (h : (lkp acc a).isSome) :
    lkp (ps.foldl loadPersistentStep acc) a = lkp acc a := by
  induction ps generalizing acc with
  | nil => rfl
  | cons p rest ih =>
    have hstep : lkp (loadPersistentStep acc p) a = lkp acc a := by
      unfold loadPersistentStep
      by_cases hk : hasKey acc p.1
      · rw [if_pos hk]
      · rw [if_neg hk]
        have hne : a ≠ p.1 := by
          intro he
          subst he
          unfold hasKey at hk
          rw [Option.isSome_iff_exists] at h
          obtain ⟨v, hv⟩ := h
          simp [hv] at hk
        exact lkp_append_single_other acc p.1 a _ hne
    rw [List.foldl_cons, ih (loadPersistentStep acc p) (by rw [hstep]; exact h),
      hstep]

theorem loadPersistent_foldl_inserts (ps : List (InfoHash × Nat))
    (acc : List (InfoHash × TorrentEntry)) (a : InfoHash) (c : Nat)
    (hnd : (ps.map Prod.fst).Nodup) (hmem : (a, c) ∈ ps)
    (habs : lkp acc a = Option.none) :
    lkp (ps.foldl loadPersistentStep acc) a =
      some { peers := [], completed := c } := by
  induction ps generalizing acc with
  | nil => simp at hmem
  | cons p rest ih =>
    simp only [List.map_cons, List.nodup_cons] at hnd
    rw [List.foldl_cons]
    rcases List.mem_cons.mp hmem with hhead | htail
    · subst hhead
      have hstep : loadPersistentStep acc (a, c) =
          acc ++ [(a, { peers := [], completed := c })] := by
        unfold loadPersistentStep hasKey
        simp [habs]
      rw [hstep]
      rw [loadPersistent_foldl_preserves rest _ a
            (by rw [lkp_append_single_self acc a _ habs]; rfl)]
      exact lkp_append_single_self acc a _ habs
    · have hne : a ≠ p.1 := by
        intro he
        exact hnd.1 (he ▸ (List.mem_map.mpr ⟨(a, c), htail, rfl⟩))
      have hstep : lkp (loadPersistentStep acc p) a = Option.none := by
        unfold loadPersistentStep
        by_cases hk : hasKey acc p.1
        · rw [if_pos hk]; exact habs
        · rw [if_neg hk, lkp_append_single_other acc p.1 a _ hne]; exact habs
      exact ih (loadPersistentStep acc p) hnd.2 htail hstep

/-- C10: `load_persistent_torrents` never overwrites an existing torrent
entry — lookups of every info-hash already present return the same entry
(peer map and completed counter) — and for every loaded info-hash not
already present (the loaded rows being keyed uniquely, as in the
database) it inserts an entry with an empty peer map and the loaded
completed count. -/
theorem load_persistent_torrents_characterization (t : TorrentTracker)
    (persistent_torrents : List (InfoHash × Nat)) :
    (∀ ih, (lkp t.torrents ih).isSome →
      lkp (t.load_persistent_torrents persistent_torrents).torrents ih =
        lkp t.torrents ih) ∧
    (∀ ih c, (persistent_torrents.map Prod.fst).Nodup →
      (ih, c) ∈ persistent_torrents →
      lkp t.torrents ih = Option.none →
      lkp (t.load_persistent_torrents persistent_torrents).torrents ih =
        some { peers := [], completed := c }) := by
  constructor
  · intro ih h
    exact loadPersistent_foldl_preserves persistent_torrents t.torrents ih h
  · intro ih c hnd hmem habs
    exact loadPersistent_foldl_inserts persistent_torrents t.torrents ih c
      hnd hmem habs

/-- A second concrete info-hash. -/
def ih2Ex : InfoHash := { bytes := [2] }

/-- A tracker already holding an entry for `ihEx` with `completed = 7`. -/
def trackerLoadEx : TorrentTracker :=
  { trackerEx with torrents := [(ihEx, { peers := [], completed := 7 })] }

/-- Witness for C10: loading `(ihEx, 3)` and `(ih2Ex, 5)` leaves the
existing `ihEx` entry unchanged and inserts a fresh entry for `ih2Ex`. -/
theorem load_persistent_torrents_characterization_witness :
    lkp (trackerLoadEx.load_persistent_torrents
          [(ihEx, 3), (ih2Ex, 5)]).torrents ihEx = lkp trackerLoadEx.torrents ihEx ∧
    lkp (trackerLoadEx.load_persistent_torrents
          [(ihEx, 3), (ih2Ex, 5)]).torrents ih2Ex =
      some { peers := [], completed := 5 } :=
  ⟨(load_persistent_torrents_characterization trackerLoadEx
      [(ihEx, 3), (ih2Ex, 5)]).1 ihEx (by decide),
   (load_persistent_torrents_characterization trackerLoadEx
      [(ihEx, 3), (ih2Ex, 5)]).2 ih2Ex 5 (by decide) (by decide) (by decide)⟩

end ClaimC10

section ClaimC7

/-- C7: the peer list assembled by `get_torrent_peers` holds at most 74
peers and never contains a record carrying the announcing client's
socket address (in particular not the announcing peer's own record), for
every tracker state and every requested info-hash. -/
theorem get_torrent_peers_bounded_and_excludes_client (t : TorrentTracker)
    (info_hash : InfoHash) (client_addr : SocketAddr) :
    (t.get_torrent_peers info_hash client_addr).length ≤ TORRENT_PEERS_LIMIT ∧
    ∀ p ∈ t.get_torrent_peers info_hash client_addr,
      p.peer_addr ≠ client_addr := by
  unfold TorrentTracker.get_torrent_peers
  cases hl : lkp t.torrents info_hash with
  | none => simp
  | some entry =>
    unfold TorrentEntry.get_peers
    constructor
    · rw [List.length_take]
      exact Nat.min_le_left _ _
    · intro p hp
      have hp' := List.take_subset _ _ hp
      have hfilt := (List.mem_filter.mp hp').2
      simpa using hfilt

/-- The socket addresses of two concrete peers. -/
def addrA : SocketAddr := { ip := IpAddr.v4 1, port := 1000 }

/-- A second concrete socket address. -/
def addrB : SocketAddr := { ip := IpAddr.v4 2, port := 2000 }

/-- A concrete seeder announcing from `addrA`. -/
def peerA : TorrentPeer :=
  { peer_id := { bytes := [10] }, peer_addr := addrA, updated_at := 0,
    uploaded := 0, downloaded := 0, left := 0,
    event := AnnounceEvent.started }

/-- A concrete leecher announcing from `addrB`. -/
def peerB : TorrentPeer :=
  { peer_id := { bytes := [11] }, peer_addr := addrB, updated_at := 0,
    uploaded := 0, downloaded := 0, left := 100,
    event := AnnounceEvent.started }

/-- A tracker whose `ihEx` swarm holds `peerA` and `peerB`. -/
def trackerPeersEx : TorrentTracker :=
  { trackerEx with torrents :=
      [(ihEx, { peers := [(peerA.peer_id, peerA), (peerB.peer_id, peerB)],
                completed := 0 })] }

/-- Witness for C7 at a concrete swarm: the list returned to the client
at `addrA` is bounded and the returned `peerB` record is not at the
client's address. -/
theorem get_torrent_peers_bounded_and_excludes_client_witness :
    (trackerPeersEx.get_torrent_peers ihEx addrA).length ≤ TORRENT_PEERS_LIMIT ∧
    peerB.peer_addr ≠ addrA :=
  ⟨(get_torrent_peers_bounded_and_excludes_client trackerPeersEx ihEx addrA).1,
   (get_torrent_peers_bounded_and_excludes_client trackerPeersEx ihEx addrA).2
     peerB (by decide)⟩

end ClaimC7

section ClaimC5

theorem map_fst_map_pair {α β : Type} (l : List (α × β)) (f : α × β → β) :
    (l.map (fun kv => (kv.1, f kv))).map Prod.fst = l.map Prod.fst := by
  induction l <;> simp_all

/-- C5: the sweep removes from every torrent entry exactly the peers
whose last update is more than `max_peer_age` old, and removes a torrent
entry itself exactly when peerless pruning is enabled, the entry has no
peers left after that removal, and it is not the case that persistence
is enabled with a positive completed counter; with pruning disabled no
entry is ever removed. -/
theorem cleanup_torrents_characterization (t : TorrentTracker) (now : Nat)
    (hnd : (t.torrents.map Prod.fst).Nodup) :
    (∀ ih e e', lkp t.torrents ih = some e →
      e' = e.remove_inactive_peers t.common.peer_timeout_seconds_maximum now →
      (∀ kv, kv ∈ e'.peers ↔ kv ∈ e.peers ∧
        now - kv.2.updated_at ≤ t.common.peer_timeout_seconds_maximum) ∧
      e'.completed = e.completed ∧
      lkp (t.cleanup_torrents now).torrents ih =
        (if t.common.enable_peerless_torrent_pruning = true ∧ e'.peers = [] ∧
            ¬(t.common.enable_persistent_statistics = true ∧ e'.completed > 0)
         then Option.none else some e')) ∧
    (t.common.enable_peerless_torrent_pruning = false → ∀ ih,
      (lkp (t.cleanup_torrents now).torrents ih).isSome =
        (lkp t.torrents ih).isSome) := by
  constructor
  · intro ih e e' hl he'
    refine ⟨?_, ?_, ?_⟩
    · intro kv
      subst he'
      simp [TorrentEntry.remove_inactive_peers, List.mem_filter, Nat.not_lt]
    · subst he'
      rfl
    · unfold TorrentTracker.cleanup_torrents
      by_cases hpr : t.common.enable_peerless_torrent_pruning
      · simp only [hpr, if_true]
        have hswept : lkp (t.torrents.map (fun kv =>
            (kv.1, kv.2.remove_inactive_peers t.common.peer_timeout_seconds_maximum now))) ih
            = some e' := by
          rw [lkp_map_pair t.torrents
            (fun kv : InfoHash × TorrentEntry =>
              kv.2.remove_inactive_peers t.common.peer_timeout_seconds_maximum now) ih,
            hl, he']
          rfl
        have hnd' : ((t.torrents.map (fun kv =>
            (kv.1, kv.2.remove_inactive_peers t.common.peer_timeout_seconds_maximum now))).map
              Prod.fst).Nodup := by
          rw [map_fst_map_pair t.torrents
            (fun kv : InfoHash × TorrentEntry =>
              kv.2.remove_inactive_peers t.common.peer_timeout_seconds_maximum now)]
          exact hnd
        rw [lkp_filter_of_nodup _ _ ih e' hnd' hswept]
        by_cases hps : t.common.enable_persistent_statistics
        · by_cases hc : e'.completed > 0
          · rw [if_pos (by simp [hps, hc]), if_neg (by simp [hpr, hps, hc])]
          · by_cases hpeers : e'.peers = []
            · rw [if_neg ?_, if_pos (by simp [hpr, hps, hc, hpeers])]
              simp [hps, hc, hpeers]
            · rw [if_pos ?_, if_neg (by simp [hpeers])]
              simp [hps, hc]
              exact List.length_pos.mpr hpeers
        · by_cases hpeers : e'.peers = []
          · rw [if_neg ?_, if_pos (by simp [hpr, hps, hpeers])]
            simp [hps, hpeers]
          · rw [if_pos ?_, if_neg (by simp [hpeers])]
            simp [hps]
            exact List.length_pos.mpr hpeers
      · rw [if_neg hpr, if_neg (by simp [hpr])]
        dsimp only
        rw [lkp_map_pair t.torrents
          (fun kv : InfoHash × TorrentEntry =>
            kv.2.remove_inactive_peers t.common.peer_timeout_seconds_maximum now) ih,
          hl, he']
        rfl
  · intro hpf ih
    unfold TorrentTracker.cleanup_torrents
    rw [if_neg (by simp [hpf])]
    dsimp only
    rw [lkp_map_pair t.torrents
      (fun kv : InfoHash × TorrentEntry =>
        kv.2.remove_inactive_peers t.common.peer_timeout_seconds_maximum now) ih]
    cases lkp t.torrents ih <;> rfl

/-- A stale peer, last updated at time 0. -/
def stalePeer : TorrentPeer :=
  { peer_id := { bytes := [12] }, peer_addr := addrA, updated_at := 0,
    uploaded := 0, downloaded := 0, left := 0,
    event := AnnounceEvent.started }

/-- A tracker (pruning on, persistence off, max peer age 60) whose only
entry holds just `stalePeer` and has `completed = 0`. -/
def trackerSweepEx : TorrentTracker :=
  { trackerEx with torrents :=
      [(ihEx, { peers := [(stalePeer.peer_id, stalePeer)], completed := 0 })] }

/-- Witness for C5: sweeping `trackerSweepEx` at time 120 drops the
stale peer and then prunes the emptied entry. -/
theorem cleanup_torrents_characterization_witness :
    lkp ((trackerSweepEx.cleanup_torrents 120)).torrents ihEx = Option.none := by
  have h := (cleanup_torrents_characterization trackerSweepEx 120 (by decide)).1
    ihEx { peers := [(stalePeer.peer_id, stalePeer)], completed := 0 } _
    (by decide) rfl
  rw [h.2.2]
  decide

end ClaimC5

section ClaimC6

/-- The completed counter recorded for an info-hash, 0 when the registry
has no entry for it. -/
def completedOf (t : TorrentTracker) (info_hash : InfoHash) : Nat :=
  match lkp t.torrents info_hash with
  | Option.none => 0
  | some e => e.completed

/-- A sequence of announce updates, each applied through
`update_torrent_with_peer_and_get_stats`. -/
def applyAnnounces (t : TorrentTracker)
    (announces : List (InfoHash × TorrentPeer)) : TorrentTracker :=
  announces.foldl
    (fun t p => (t.update_torrent_with_peer_and_get_stats p.1 p.2).1) t

theorem update_peer_completed_le (e : TorrentEntry) (peer : TorrentPeer) :
    e.completed ≤ (e.update_peer peer).1.completed := by
  unfold TorrentEntry.update_peer
  by_cases hs : peer.event = AnnounceEvent.stopped
  · rw [if_pos hs]
  · rw [if_neg hs]
    dsimp only
    split <;> omega

theorem lkp_update_self (t : TorrentTracker) (info_hash : InfoHash)
    (peer : TorrentPeer) (e : TorrentEntry)
    (hl : lkp t.torrents info_hash = some e) :
    lkp (t.update_torrent_with_peer_and_get_stats info_hash peer).1.torrents
      info_hash = some (e.update_peer peer).1 := by
  unfold TorrentTracker.update_torrent_with_peer_and_get_stats
  dsimp only
  unfold insertKey
  rw [if_pos (by unfold hasKey; rw [hl]; rfl)]
  rw [lkp_replaceAll]
  rw [hl]
  simp [hl]

theorem completedOf_update_step (t : TorrentTracker) (ihu : InfoHash)
    (peer : TorrentPeer) (info_hash : InfoHash) :
    completedOf t info_hash ≤
      completedOf (t.update_torrent_with_peer_and_get_stats ihu peer).1
        info_hash ∧
    ((lkp t.torrents info_hash).isSome →
      (lkp (t.update_torrent_with_peer_and_get_stats ihu peer).1.torrents
        info_hash).isSome) := by
  unfold TorrentTracker.update_torrent_with_peer_and_get_stats completedOf
  dsimp only
  unfold insertKey
  by_cases hk : hasKey t.torrents ihu
  · rw [if_pos hk]
    rw [lkp_replaceAll]
    by_cases hx : info_hash = ihu
    · subst hx
      cases hl : lkp t.torrents info_hash with
      | none =>
        unfold hasKey at hk
        rw [hl] at hk
        simp at hk
      | some e0 =>
        simp only [hl, Option.map_some', if_pos rfl]
        constructor
        · have := update_peer_completed_le ((lkp t.torrents info_hash).getD TorrentEntry.new) peer
          rw [hl] at this
          exact this
        · intro
          rfl
    · cases hl : lkp t.torrents info_hash with
      | none => simp [hl]
      | some e0 => simp [hl, hx]
  · rw [if_neg hk]
    by_cases hx : info_hash = ihu
    · subst hx
      have hl : lkp t.torrents info_hash = Option.none := by
        unfold hasKey at hk
        cases hl : lkp t.torrents info_hash with
        | none => rfl
        | some e0 => rw [hl] at hk; simp at hk
      rw [lkp_append_single_self t.torrents info_hash _ hl, hl]
      exact ⟨Nat.zero_le _, fun _ => rfl⟩
    · rw [lkp_append_single_other t.torrents ihu info_hash _ hx]
      exact ⟨Nat.le_refl _, fun h => h⟩

theorem update_peer_completed_seeder (e : TorrentEntry) (peer : TorrentPeer)
    (prev : TorrentPeer) (hprev : lkp e.peers peer.peer_id = some prev)
    (hseed : prev.left = 0) (hev : peer.event = AnnounceEvent.completed) :
    (e.update_peer peer).1.completed = e.completed := by
  unfold TorrentEntry.update_peer
  rw [if_neg (by simp [hev])]
  dsimp only
  rw [hprev]
  simp [hseed]

/-- C6: the completed counter never decreases under any sequence of
announce updates applied through
`update_torrent_with_peer_and_get_stats` (and those updates never drop a
torrent entry), and a repeated `Completed` announce from a peer already
stored as a seeder leaves the counter unchanged. -/
theorem completed_monotone :
    (∀ (t : TorrentTracker) (announces : List (InfoHash × TorrentPeer))
       (info_hash : InfoHash),
      completedOf t info_hash ≤
        completedOf (applyAnnounces t announces) info_hash) ∧
    (∀ (t : TorrentTracker) (announces : List (InfoHash × TorrentPeer))
       (info_hash : InfoHash),
      (lkp t.torrents info_hash).isSome →
      (lkp (applyAnnounces t announces).torrents info_hash).isSome) ∧
    (∀ (t : TorrentTracker) (info_hash : InfoHash) (peer : TorrentPeer)
       (e : TorrentEntry) (prev : TorrentPeer),
      lkp t.torrents info_hash = some e →
      lkp e.peers peer.peer_id = some prev →
      prev.left = 0 →
      peer.event = AnnounceEvent.completed →
      completedOf (t.update_torrent_with_peer_and_get_stats info_hash peer).1
        info_hash = completedOf t info_hash) := by
  refine ⟨?_, ?_, ?_⟩
  · intro t announces
    induction announces generalizing t with
    | nil => intro info_hash; exact Nat.le_refl _
    | cons p rest ih =>
      intro info_hash
      calc completedOf t info_hash
          ≤ completedOf (t.update_torrent_with_peer_and_get_stats p.1 p.2).1
              info_hash := (completedOf_update_step t p.1 p.2 info_hash).1
        _ ≤ completedOf (applyAnnounces
              (t.update_torrent_with_peer_and_get_stats p.1 p.2).1 rest)
              info_hash := ih _ info_hash
  · intro t announces
    induction announces generalizing t with
    | nil => intro info_hash h; exact h
    | cons p rest ih =>
      intro info_hash h
      exact ih _ info_hash ((completedOf_update_step t p.1 p.2 info_hash).2 h)
  · intro t info_hash peer e prev hl hprev hseed hev
    unfold completedOf
    rw [lkp_update_self t info_hash peer e hl, hl]
    dsimp only
    exact update_peer_completed_seeder e peer prev hprev hseed hev

/-- A completed announce from the already-stored seeder `peerA`. -/
def peerACompleted : TorrentPeer :=
  { peerA with event := AnnounceEvent.completed }

/-- Witness for C6: applying two announces to a concrete tracker does
not lower `completedOf`; the entry survives; and a repeated `Completed`
announce from the stored seeder `peerA` leaves the counter unchanged. -/
theorem completed_monotone_witness :
    completedOf trackerPeersEx ihEx ≤
      completedOf (applyAnnounces trackerPeersEx
        [(ihEx, peerACompleted), (ih2Ex, peerB)]) ihEx ∧
    (lkp (applyAnnounces trackerPeersEx
        [(ihEx, peerACompleted), (ih2Ex, peerB)]).torrents ihEx).isSome ∧
    completedOf (trackerPeersEx.update_torrent_with_peer_and_get_stats
        ihEx peerACompleted).1 ihEx = completedOf trackerPeersEx ihEx :=
  ⟨completed_monotone.1 trackerPeersEx [(ihEx, peerACompleted), (ih2Ex, peerB)]
      ihEx,
   completed_monotone.2.1 trackerPeersEx
      [(ihEx, peerACompleted), (ih2Ex, peerB)] ihEx (by decide),
   completed_monotone.2.2 trackerPeersEx ihEx peerACompleted
      { peers := [(peerA.peer_id, peerA), (peerB.peer_id, peerB)],
        completed := 0 } peerA (by decide) (by decide) (by decide) (by decide)⟩

end ClaimC6

section ClaimC1

/-- A concrete cypher instance for test states: pack the two 32-bit
halves into one 64-bit number.  Any bijection on blocks satisfies the
`Cypher` interface; this one makes the witnesses computable. -/
def testCypher : Cypher where
  encrypt d := d.client_id + 2 ^ 32 * d.expiration_timestamp
  decrypt n := { client_id := n % 2 ^ 32, expiration_timestamp := n / 2 ^ 32 }
  decrypt_encrypt := by
    intro d hc he
    cases d with
    | mk c e =>
      simp only at hc he
      simp only [ConnectionIdData.mk.injEq]
      have h32 : (2 : Nat) ^ 32 = 4294967296 := by norm_num
      rw [h32] at hc he ⊢
      omega

/-- A concrete issuer over `testCypher`, fingerprinting a socket address
by its port. -/
def testIssuer : EncryptedConnectionIdIssuer where
  cypher := testCypher
  clientIdOf a := a.port % 2 ^ 32
  clientIdOf_lt a := Nat.mod_lt _ (by norm_num)

/-- A concrete client socket address. -/
def caddr : SocketAddr := { ip := IpAddr.v4 0, port := 1 }

/-- A second concrete client socket address, with a different
fingerprint. -/
def caddr2 : SocketAddr := { ip := IpAddr.v4 0, port := 2 }

/-- Counterexample to C1 as stated: the connection id issued for `caddr`
at time 1 verifies `Ok` at the earlier time 0, although the claim
requires `Ok` exactly for verification times `t′` with `t ≤ t′`:
the code never checks a lower bound (and has no grace beyond the
120-second expiry). -/
theorem verify_connection_id_accepts_preissue_time :
    testIssuer.verify_connection_id
      (testIssuer.new_connection_id caddr 1) caddr 0 = Except.ok () ∧
    ¬ (1 ≤ 0) := by
  constructor
  · rfl
  · decide

/-- C1 (amended): verifying the connection id produced by
`new_connection_id(a, t)` against the same address `a` at time `t′`
returns `Ok` exactly when `t′ ≤ t + 120` (no grace period and no lower
bound on `t′`), and verifying it against any address whose client-id
fingerprint differs from `a`'s returns the invalid-client error. -/
theorem verify_connection_id_window_characterization
    (issuer : EncryptedConnectionIdIssuer) (a : SocketAddr) (t now : Nat)
    (hbound : t + 120 < 2 ^ 32) :
    (issuer.verify_connection_id (issuer.new_connection_id a t) a now =
        Except.ok () ↔ now ≤ t + 120) ∧
    (∀ a', issuer.clientIdOf a' ≠ issuer.clientIdOf a →
      issuer.verify_connection_id (issuer.new_connection_id a t) a' now =
        Except.error "Invalid client id") := by
  have hdec := issuer.cypher.decrypt_encrypt
    { client_id := issuer.clientIdOf a, expiration_timestamp := t + 120 }
    (issuer.clientIdOf_lt a) hbound
  unfold EncryptedConnectionIdIssuer.verify_connection_id
    EncryptedConnectionIdIssuer.new_connection_id at *
  constructor
  · dsimp only
    rw [hdec]
    rw [if_neg (by simp)]
    dsimp only
    constructor
    · intro h
      by_cases hlt : t + 120 < now
      · rw [if_pos hlt] at h
        exact absurd h (by simp)
      · omega
    · intro h
      rw [if_neg (by omega)]
  · intro a' hne
    dsimp only
    rw [hdec]
    dsimp only
    rw [if_pos (Ne.symm hne)]

/-- Witness for C1 (amended): a concrete issue at time 5 verifies `Ok`
at time 100 for the same address, and fails with the invalid-client
error for an address with a different fingerprint. -/
theorem verify_connection_id_window_characterization_witness :
    testIssuer.verify_connection_id
      (testIssuer.new_connection_id caddr 5) caddr 100 = Except.ok () ∧
    testIssuer.verify_connection_id
      (testIssuer.new_connection_id caddr 5) caddr2 100 =
      Except.error "Invalid client id" :=
  ⟨(verify_connection_id_window_characterization testIssuer caddr 5 100
      (by norm_num)).1.mpr (by norm_num),
   (verify_connection_id_window_characterization testIssuer caddr 5 100
      (by norm_num)).2 caddr2 (by decide)⟩

end ClaimC1

section ClaimC3

/-- A concrete stand-in for the seeded 64-bit digest used by the witness
cookie, for evaluating the checker on explicit inputs. -/
def testHash64 (a : SocketAddr) (expiry : Nat) : Nat := a.port + expiry

/-- Counterexample to C3 as stated: a correctly built cookie whose
expiry equals the clock reading passes the check (the code rejects as
expired only when `expiry < now`, strictly), although the claim requires
the `Expired` error for every cookie with `expiry ≤ now`. -/
theorem witness_cookie_accepts_expiry_equal_now :
    witnessCheckConnectionCookie testHash64 caddr
      (witnessBuild testHash64 caddr 100) 100 = Except.ok 100 := by
  rfl

/-- C3 (amended): the witness cookie checker reads the expiry from the
last four bytes and returns the `Expired` error exactly when that expiry
is strictly less than the current time; for a cookie with
`expiry ≥ now`, it returns the bad-witness error exactly when the first
four bytes differ from the witness rebuilt from the (seeded) digest of
the remote address and that expiry, and accepts otherwise. -/
theorem witness_cookie_check_characterization
    (hash64 : SocketAddr → Nat → Nat) (a : SocketAddr) (c : WCookie)
    (now : Nat) :
    (witnessCheckConnectionCookie hash64 a c now =
        Except.error ServerError.ExpiredConnectionId ↔ c.expiryBits < now) ∧
    (¬ c.expiryBits < now →
      ((witnessCheckConnectionCookie hash64 a c now =
          Except.error ServerError.BadWitnessConnectionId ↔
        c.witness ≠ hash64 a c.expiryBits % 2 ^ 32) ∧
       (c.witness = hash64 a c.expiryBits % 2 ^ 32 →
        witnessCheckConnectionCookie hash64 a c now =
          Except.ok c.expiryBits))) := by
  unfold witnessCheckConnectionCookie witnessBuild
  dsimp only
  have hiff : (c ≠
        { witness := hash64 a c.expiryBits % 2 ^ 32, expiryBits := c.expiryBits }) ↔
      c.witness ≠ hash64 a c.expiryBits % 2 ^ 32 := by
    cases c
    simp [WCookie.mk.injEq]
  constructor
  · by_cases hlt : c.expiryBits < now
    · rw [if_pos hlt]
      simp [hlt]
    · rw [if_neg hlt]
      simp only [hlt, iff_false]
      split <;> simp
  · intro hexp
    rw [if_neg hexp]
    constructor
    · by_cases hne : c.witness = hash64 a c.expiryBits % 2 ^ 32
      · rw [if_neg (by rw [hiff]; simp [hne])]
        simp [hne]
      · rw [if_pos (hiff.mpr hne)]
        simpa using hne
    · intro heq
      rw [if_neg (by rw [hiff]; simp [heq])]

/-- Witness for C3 (amended), at three concrete cookies: one already
expired, one unexpired with a wrong witness, one unexpired with the
right witness. -/
theorem witness_cookie_check_characterization_witness :
    witnessCheckConnectionCookie testHash64 caddr
      { witness := 0, expiryBits := 50 } 100 =
      Except.error ServerError.ExpiredConnectionId ∧
    witnessCheckConnectionCookie testHash64 caddr
      { witness := 0, expiryBits := 200 } 100 =
      Except.error ServerError.BadWitnessConnectionId ∧
    witnessCheckConnectionCookie testHash64 caddr
      { witness := 201, expiryBits := 200 } 100 = Except.ok 200 :=
  ⟨(witness_cookie_check_characterization testHash64 caddr
      { witness := 0, expiryBits := 50 } 100).1.mpr (by norm_num),
   ((witness_cookie_check_characterization testHash64 caddr
      { witness := 0, expiryBits := 200 } 100).2 (by norm_num)).1.mpr
      (by decide),
   ((witness_cookie_check_characterization testHash64 caddr
      { witness := 201, expiryBits := 200 } 100).2 (by norm_num)).2
      (by decide)⟩

end ClaimC3

end Torrust
